import Mathlib

/-!
# A shallow embedding of the `@circulo-ai/di` resolution engine

This file models the dependency-injection runtime of the repository
(`src/service-provider.ts`, `src/service-scope.ts`, `src/service-collection.ts`)
and proves or refutes the frozen claims about it.

Modelling conventions:
* Tokens and service keys are `Nat` (the code compares them by identity only).
* JavaScript `undefined` is the explicit value `Value.undef`; every map read
  `m.get(k)` that the code compares against `undefined` is modelled as
  `(lookupA m k).getD .undef`, while `m.has(k)` is `(lookupA m k).isSome`.
* Factories are a small deep-embedded language `FExp` covering the shapes the
  claims need: constant values, fresh object allocation, a nested synchronous
  `resolve` through the resolver handed to the factory, and intrinsically
  asynchronous factories (settling to a value, or rejecting).
* The cooperative async model: an asynchronous materialization allocates a
  promise id whose eventual outcome is predetermined by the factory; callers
  that would `await` receive `ARes.awaiting pid`.  A separate `settlePromise`
  step models the microtask that settles the promise and runs the creating
  caller's continuation (cache write + in-flight table cleanup on success,
  nothing on rejection) — exactly the code in `resolveDescriptorAsync`.
* Recursion through factories is bounded by explicit fuel; running out of fuel
  yields the model-internal error `DIError.outOfFuel` (the real code would
  still be recursing at that point).
* One deviation, harmless to every claim below: in the code a factory that
  throws after performing nested resolutions keeps those nested cache writes;
  in the model a synchronous error discards the intermediate world.
-/

namespace DI

/-- Lifetimes, from `src/lifetime.ts` / `ServiceLifetime`. -/
inductive ServiceLifetime where
  | Transient
  | Scoped
  | Singleton
  | GlobalSingleton
deriving DecidableEq, Repr

/-- Runtime values.  `undef` is JavaScript `undefined`; `inst` is an object
with identity (two `inst` values are the same reference iff the ids match). -/
inductive Value where
  | undef
  | vnat (n : Nat)
  | inst (id : Nat)
deriving DecidableEq, Repr

/-- A resolution-path frame `(token, key)` (`ResolutionFrame` in the code). -/
abbrev Frame := Nat × Option Nat

/-- The error taxonomy of `src/errors.ts`, plus the plain `Error`s thrown by
`resolveMap`, `ServiceScope.getOrCreate` and `ServiceCollection.addDescriptor`,
plus the model-internal `outOfFuel`. -/
inductive DIError where
  | missingService (token : Nat) (key : Option Nat)
  | circularDependency (path : List Frame)
  | asyncFactory (token : Option Nat) (key : Option Nat) (path : List Frame)
  | scopeResolution (token : Nat) (key : Option Nat) (path : List Frame)
  | duplicateRegistration (token : Nat)
  | mapRequiresKey (token : Nat)
  | mapDuplicateKey (token : Nat) (key : Nat)
  | notScoped (token : Nat)
  | factoryFailure (code : Nat)
  | outOfFuel
deriving DecidableEq, Repr

/-- The deep-embedded factory bodies. -/
inductive FExp where
  | constv (v : Value)
  | fresh
  | resolveTok (t : Nat) (opt : Bool) (k : Option Nat)
  | asyncConst (v : Value)
  | asyncFail (code : Nat)
deriving DecidableEq, Repr

/-- `ServiceDescriptor` (src/types.ts), with the fields the engine reads. -/
structure ServiceDescriptor where
  id : Nat
  token : Nat
  key : Option Nat
  lifetime : ServiceLifetime
  factory : FExp
  globalKey : Option String
  disposePriority : Int
  customDispose : Bool
deriving DecidableEq, Repr

/-- The provider's grouped registry; grouping preserves insertion order, so the
descriptor list for token `t` is `regs.filter (·.token = t)`. -/
abbrev Registry := List ServiceDescriptor

/-! ## Association-list maps -/

def lookupA {κ β : Type} [DecidableEq κ] : List (κ × β) → κ → Option β
  | [], _ => none
  | (k', v) :: rest, k => if k' = k then some v else lookupA rest k

def insertA {κ β : Type} [DecidableEq κ] : List (κ × β) → κ → β → List (κ × β)
  | [], k, v => [(k, v)]
  | (k', v') :: rest, k, v =>
    if k' = k then (k, v) :: rest else (k', v') :: insertA rest k v

def eraseA {κ β : Type} [DecidableEq κ] : List (κ × β) → κ → List (κ × β)
  | [], _ => []
  | (k', v') :: rest, k =>
    if k' = k then rest else (k', v') :: eraseA rest k

theorem lookupA_insertA_self {κ β : Type} [DecidableEq κ]
    (l : List (κ × β)) (k : κ) (v : β) : lookupA (insertA l k v) k = some v := by
  induction l with
  | nil => simp [insertA, lookupA]
  | cons p rest ih =>
    obtain ⟨k', v'⟩ := p
    by_cases h : k' = k
    · simp [insertA, lookupA, h]
    · simp [insertA, lookupA, h, ih]

theorem lookupA_insertA_ne {κ β : Type} [DecidableEq κ]
    (l : List (κ × β)) (k k' : κ) (v : β) (h : k' ≠ k) :
    lookupA (insertA l k v) k' = lookupA l k' := by
  induction l with
  | nil => simp [insertA, lookupA, Ne.symm h]
  | cons p rest ih =>
    obtain ⟨k₀, v₀⟩ := p
    by_cases h0 : k₀ = k
    · subst h0
      simp [insertA, lookupA, Ne.symm h, h]
    · by_cases h1 : k₀ = k'
      · simp [insertA, lookupA, h0, h1, h]
      · simp [insertA, lookupA, h0, h1, ih]

/-! ## Engine state -/

/-- A manually registered dispose hook (`{fn, priority}`); `label` identifies
the callback for ordering statements. -/
structure Hook where
  label : Nat
  priority : Int
deriving DecidableEq, Repr

/-- Provider-local state: singleton cache, in-flight promise table, resolution
order and manual dispose hooks (fields of `ServiceProvider`). -/
structure ProvSt where
  singletons : List (Nat × Value)
  singletonPromises : List (Nat × Nat)
  singletonOrder : List Nat
  disposeHandlers : List Hook
deriving DecidableEq, Repr

/-- Process-global state: the `globalThis`-attached caches. -/
structure GlobSt where
  globalCache : List (String × Value)
  globalPromises : List (String × Nat)
deriving DecidableEq, Repr

/-- Scope-local state (fields of `ServiceScope`). -/
structure ScopeSt where
  scopedInstances : List (Nat × Value)
  scopedPromises : List (Nat × Nat)
  disposeHandlers : List Hook
  resolutionOrder : List Nat
  disposed : Bool
deriving DecidableEq, Repr

/-- A promise's eventual outcome. -/
inductive POutcome where
  | okP (v : Value)
  | errP (e : DIError)
deriving DecidableEq, Repr

/-- The continuation the creating caller runs when its materialization promise
fulfills (the code after `await promise` in `resolveDescriptorAsync`). -/
inductive Completion where
  | singletonC (descId : Nat)
  | globalC (gkey : String)
  | scopedC (descId : Nat)
  | noneC
deriving DecidableEq, Repr

structure PromEntry where
  outcome : POutcome
  completion : Completion
  settled : Bool
deriving DecidableEq, Repr

/-- The whole mutable world of one cooperative process: one provider under
focus, the process-global tier, one scope (used only when resolution runs
from that scope), the promise store, a fresh-id counter and the per-descriptor
factory-invocation counter (model bookkeeping for "invoked at most once"). -/
structure World where
  prov : ProvSt
  glob : GlobSt
  scopeSt : ScopeSt
  promStore : List (Nat × PromEntry)
  nextId : Nat
  factoryCount : List (Nat × Nat)
deriving DecidableEq, Repr

def emptyProv : ProvSt := ⟨[], [], [], []⟩
def emptyScope : ScopeSt := ⟨[], [], [], [], false⟩
def emptyWorld : World := ⟨emptyProv, ⟨[], []⟩, emptyScope, [], 100, []⟩

/-- Number of times descriptor `i`'s factory has been invoked. -/
def countOf (w : World) (i : Nat) : Nat := (lookupA w.factoryCount i).getD 0

def bumpCount (w : World) (i : Nat) : World :=
  { w with factoryCount := insertA w.factoryCount i (countOf w i + 1) }

def recordOrder (l : List Nat) (i : Nat) : List Nat :=
  if i ∈ l then l else l ++ [i]

def mkPromise (o : POutcome) (w : World) : Nat × World :=
  (w.nextId,
   { w with promStore := insertA w.promStore w.nextId ⟨o, .noneC, false⟩,
            nextId := w.nextId + 1 })

def setCompletion (w : World) (pid : Nat) (c : Completion) : World :=
  match lookupA w.promStore pid with
  | some e => { w with promStore := insertA w.promStore pid { e with completion := c } }
  | none => w

/-! ## Descriptor selection -/

/-- `ServiceProvider.pickDescriptor`: unkeyed lookup takes the last descriptor
registered for the token, keyed lookup the first whose key matches. -/
def pickDescriptor (regs : Registry) (t : Nat) (k : Option Nat) :
    Option ServiceDescriptor :=
  let ds := regs.filter (fun d => d.token = t)
  match k with
  | none => ds.getLast?
  | some key => ds.find? (fun d => d.key = some key)

/-- `descriptor.key ?? key` in the frame pushed by `resolveInternal`. -/
def frameKey (dk k : Option Nat) : Option Nat :=
  match dk with
  | some x => some x
  | none => k

/-- `ServiceProvider.globalKeyFor` (with `descriptor.globalKey ?? ...` already
applied by the caller): explicit global key, or `tokenLabel:keyLabel`. -/
def globalKeyFor (d : ServiceDescriptor) : String :=
  match d.globalKey with
  | some s => s
  | none =>
    toString d.token ++ (match d.key with
      | some k => ":" ++ toString k
      | none => "")

/-! ## Synchronous resolution

The mutually recursive cluster `resolveInternal` → `resolveDescriptorSync` →
`materializeSync` / `ServiceScope.getOrCreate` → factory → nested `resolve` is
packed into one fuel-indexed function `syncStep` so that the recursion is
structural and closed runs compute by `decide`/`rfl`. -/

/-- Result of running a factory body: a plain value, or a promise object. -/
inductive FRes where
  | value (v : Value)
  | promiseRes (pid : Nat)
deriving DecidableEq, Repr

/-- One call of the synchronous cluster.  `fs` says whether resolution runs
with a scope (`scope` parameter non-null in the code). -/
inductive SCall where
  | internal (t : Nat) (opt : Bool) (k : Option Nat) (fs : Bool) (stack : List Frame)
  | desc (d : ServiceDescriptor) (fs : Bool) (stack : List Frame)
  | mat (d : ServiceDescriptor) (fs : Bool) (stack : List Frame)
  | goc (d : ServiceDescriptor)
  | runF (d : ServiceDescriptor) (fs : Bool) (stack : List Frame)
deriving DecidableEq, Repr

def setSingleton (w : World) (i : Nat) (v : Value) : World :=
  { w with prov := { w.prov with
      singletons := insertA w.prov.singletons i v,
      singletonOrder := recordOrder w.prov.singletonOrder i } }

def setGlobalCache (w : World) (gk : String) (v : Value) : World :=
  { w with glob := { w.glob with globalCache := insertA w.glob.globalCache gk v } }

/-- `ServiceScope.getOrCreate`'s cache write (`scopedInstances.set`
followed by `recordResolution`). -/
def gocRecord (w : World) (i : Nat) (v : Value) : World :=
  { w with scopeSt := { w.scopeSt with
      scopedInstances := insertA w.scopeSt.scopedInstances i v,
      resolutionOrder := recordOrder w.scopeSt.resolutionOrder i } }

def syncStep (regs : Registry) : Nat → SCall → World → Except DIError (FRes × World)
  | 0, _, _ => .error .outOfFuel
  | fuel + 1, c, w =>
    match c with
    | .internal t opt k fs stack =>
      -- resolveInternal: pick, push frame, cycle check, dispatch.
      match pickDescriptor regs t k with
      | none => if opt then .ok (.value .undef, w) else .error (.missingService t k)
      | some d =>
        let frame : Frame := (t, frameKey d.key k)
        if frame ∈ stack then .error (.circularDependency (stack ++ [frame]))
        else syncStep regs fuel (.desc d fs (stack ++ [frame])) w
    | .desc d fs stack =>
      -- resolveDescriptorSync: lifetime dispatch.
      match d.lifetime with
      | .Singleton =>
        let existing := (lookupA w.prov.singletons d.id).getD .undef
        if existing ≠ .undef then .ok (.value existing, w)
        else if (lookupA w.prov.singletonPromises d.id).isSome then
          .error (.asyncFactory (some d.token) d.key stack)
        else
          match syncStep regs fuel (.mat d fs stack) w with
          | .ok (.value v, w') => .ok (.value v, setSingleton w' d.id v)
          | other => other
      | .GlobalSingleton =>
        let gk := globalKeyFor d
        match lookupA w.glob.globalCache gk with
        | some v => .ok (.value v, w)
        | none =>
          if (lookupA w.glob.globalPromises gk).isSome then
            .error (.asyncFactory (some d.token) d.key stack)
          else
            match syncStep regs fuel (.mat d fs stack) w with
            | .ok (.value v, w') => .ok (.value v, setGlobalCache w' gk v)
            | other => other
      | .Scoped =>
        if fs = false then .error (.scopeResolution d.token d.key stack)
        else if (lookupA w.scopeSt.scopedPromises d.id).isSome then
          .error (.asyncFactory (some d.token) d.key stack)
        else
          let cached := (lookupA w.scopeSt.scopedInstances d.id).getD .undef
          if cached ≠ .undef then .ok (.value cached, w)
          else syncStep regs fuel (.goc d) w
      | .Transient => syncStep regs fuel (.mat d fs stack) w
    | .mat d fs stack =>
      -- materializeSync: run the factory with the path-bound resolver and
      -- refuse promises.
      match syncStep regs fuel (.runF d fs stack) w with
      | .ok (.promiseRes _, _) => .error (.asyncFactory (some d.token) d.key stack)
      | other => other
    | .goc d =>
      -- ServiceScope.getOrCreate: note the factory is invoked with the SCOPE
      -- itself as resolver, i.e. `fs = true` and an EMPTY path.
      if d.lifetime ≠ .Scoped then .error (.notScoped d.token)
      else match lookupA w.scopeSt.scopedInstances d.id with
      | some v => .ok (.value v, w)
      | none =>
        match syncStep regs fuel (.runF d true []) w with
        | .ok (.value v, w') => .ok (.value v, gocRecord w' d.id v)
        | .ok (.promiseRes _, _) => .error (.asyncFactory none none [])
        | .error e => .error e
    | .runF d fs stack =>
      -- Invoke the factory body; `fs`/`stack` are what the resolver handed to
      -- it is bound to.
      let w1 := bumpCount w d.id
      match d.factory with
      | .constv v => .ok (.value v, w1)
      | .fresh => .ok (.value (.inst w1.nextId), { w1 with nextId := w1.nextId + 1 })
      | .resolveTok t opt k => syncStep regs fuel (.internal t opt k fs stack) w1
      | .asyncConst v =>
        let p := mkPromise (.okP v) w1
        .ok (.promiseRes p.1, p.2)
      | .asyncFail code =>
        let p := mkPromise (.errP (.factoryFailure code)) w1
        .ok (.promiseRes p.1, p.2)

/-- `resolveInternal` in synchronous mode. -/
def resolveInternalSync (fuel : Nat) (regs : Registry) (t : Nat) (opt : Bool)
    (k : Option Nat) (fs : Bool) (stack : List Frame) (w : World) :
    Except DIError (FRes × World) :=
  syncStep regs fuel (.internal t opt k fs stack) w

/-- `resolveDescriptorSync`. -/
def resolveDescriptorSync (fuel : Nat) (regs : Registry) (d : ServiceDescriptor)
    (fs : Bool) (stack : List Frame) (w : World) : Except DIError (FRes × World) :=
  syncStep regs fuel (.desc d fs stack) w

/-- `ServiceProvider.resolve token key` (no scope, empty path). -/
def providerResolve (fuel : Nat) (regs : Registry) (t : Nat) (k : Option Nat)
    (w : World) : Except DIError (FRes × World) :=
  resolveInternalSync fuel regs t false k false [] w

/-- `ServiceScope.resolve token key` (scope-bound, empty path). -/
def scopeResolve (fuel : Nat) (regs : Registry) (t : Nat) (k : Option Nat)
    (w : World) : Except DIError (FRes × World) :=
  resolveInternalSync fuel regs t false k true [] w

/-! ## Asynchronous resolution

`resolveDescriptorAsync` runs synchronously up to the point where the real
code would `await`: the result is either `done v` (a cached value, returned
without suspending on anything new) or `awaiting pid` (the caller holds the
in-flight promise `pid`).  `settlePromise` later models the settlement
microtask. -/

inductive ARes where
  | done (v : Value)
  | awaiting (pid : Nat)
deriving DecidableEq, Repr

/-- `materializeAsync` up to its first suspension: invoke the factory with the
path-bound resolver and allocate the promise that the whole materialization
settles through.  Inside the async function every thrown error becomes a
rejection, so real `DIError`s surface as a rejected promise; only the model's
`outOfFuel` escapes as a hard error. -/
def materializeAsyncStart (fuel : Nat) (regs : Registry) (d : ServiceDescriptor)
    (fs : Bool) (stack : List Frame) (w : World) : Except DIError (Nat × World) :=
  let w1 := bumpCount w d.id
  match d.factory with
  | .constv v => .ok (mkPromise (.okP v) w1)
  | .fresh =>
    .ok (mkPromise (.okP (.inst w1.nextId)) { w1 with nextId := w1.nextId + 1 })
  | .asyncConst v => .ok (mkPromise (.okP v) w1)
  | .asyncFail code => .ok (mkPromise (.errP (.factoryFailure code)) w1)
  | .resolveTok t opt k =>
    match syncStep regs fuel (.internal t opt k fs stack) w1 with
    | .ok (.value v, w2) => .ok (mkPromise (.okP v) w2)
    | .ok (.promiseRes _, w2) => .ok (mkPromise (.errP (.asyncFactory none none [])) w2)
    | .error .outOfFuel => .error .outOfFuel
    | .error e => .ok (mkPromise (.errP e) w1)

/-- `resolveDescriptorAsync`. -/
def resolveDescriptorAsync (fuel : Nat) (regs : Registry) (d : ServiceDescriptor)
    (fs : Bool) (stack : List Frame) (w : World) : Except DIError (ARes × World) :=
  match d.lifetime with
  | .Singleton =>
    let existing := (lookupA w.prov.singletons d.id).getD .undef
    if existing ≠ .undef then .ok (.done existing, w)
    else match lookupA w.prov.singletonPromises d.id with
    | some pid => .ok (.awaiting pid, w)
    | none =>
      match materializeAsyncStart fuel regs d fs stack w with
      | .error e => .error e
      | .ok (pid, w1) =>
        let w2 := { w1 with prov := { w1.prov with
          singletonPromises := insertA w1.prov.singletonPromises d.id pid } }
        .ok (.awaiting pid, setCompletion w2 pid (.singletonC d.id))
  | .GlobalSingleton =>
    let gk := globalKeyFor d
    match lookupA w.glob.globalCache gk with
    | some v => .ok (.done v, w)
    | none =>
      match lookupA w.glob.globalPromises gk with
      | some pid => .ok (.awaiting pid, w)
      | none =>
        match materializeAsyncStart fuel regs d fs stack w with
        | .error e => .error e
        | .ok (pid, w1) =>
          let w2 := { w1 with glob := { w1.glob with
            globalPromises := insertA w1.glob.globalPromises gk pid } }
          .ok (.awaiting pid, setCompletion w2 pid (.globalC gk))
  | .Scoped =>
    if fs = false then .error (.scopeResolution d.token d.key stack)
    else
      let cached := (lookupA w.scopeSt.scopedInstances d.id).getD .undef
      if cached ≠ .undef then .ok (.done cached, w)
      else match lookupA w.scopeSt.scopedPromises d.id with
      | some pid => .ok (.awaiting pid, w)
      | none =>
        match materializeAsyncStart fuel regs d fs stack w with
        | .error e => .error e
        | .ok (pid, w1) =>
          let w2 := { w1 with scopeSt := { w1.scopeSt with
            scopedPromises := insertA w1.scopeSt.scopedPromises d.id pid } }
          .ok (.awaiting pid, setCompletion w2 pid (.scopedC d.id))
  | .Transient =>
    match materializeAsyncStart fuel regs d fs stack w with
    | .error e => .error e
    | .ok (pid, w1) => .ok (.awaiting pid, w1)

/-- `resolveInternal` in asynchronous mode. -/
def resolveInternalAsync (fuel : Nat) (regs : Registry) (t : Nat) (opt : Bool)
    (k : Option Nat) (fs : Bool) (stack : List Frame) (w : World) :
    Except DIError (ARes × World) :=
  match pickDescriptor regs t k with
  | none => if opt then .ok (.done .undef, w) else .error (.missingService t k)
  | some d =>
    let frame : Frame := (t, frameKey d.key k)
    if frame ∈ stack then .error (.circularDependency (stack ++ [frame]))
    else resolveDescriptorAsync fuel regs d fs (stack ++ [frame]) w

/-- `ServiceProvider.resolveAsync token key`. -/
def providerResolveAsync (fuel : Nat) (regs : Registry) (t : Nat) (k : Option Nat)
    (w : World) : Except DIError (ARes × World) :=
  resolveInternalAsync fuel regs t false k false [] w

/-- The creating caller's continuation after `await promise` succeeds: clear
the in-flight marker for the cache key and write the cache
(`setInstance` for scoped). -/
def runCompletion (c : Completion) (v : Value) (w : World) : World :=
  match c with
  | .singletonC i =>
    { w with prov := { w.prov with
        singletonPromises := eraseA w.prov.singletonPromises i,
        singletons := insertA w.prov.singletons i v,
        singletonOrder := recordOrder w.prov.singletonOrder i } }
  | .globalC gk =>
    { w with glob := { w.glob with
        globalPromises := eraseA w.glob.globalPromises gk,
        globalCache := insertA w.glob.globalCache gk v } }
  | .scopedC i =>
    { w with scopeSt := { w.scopeSt with
        scopedInstances := insertA w.scopeSt.scopedInstances i v,
        scopedPromises := eraseA w.scopeSt.scopedPromises i,
        resolutionOrder := recordOrder w.scopeSt.resolutionOrder i } }
  | .noneC => w

/-- Settle an in-flight promise.  On fulfillment the creator's continuation
runs (cache write + table cleanup); on rejection the `await` throws, so no
cleanup runs and the in-flight table entry stays behind. -/
def settlePromise (w : World) (pid : Nat) : World :=
  match lookupA w.promStore pid with
  | none => w
  | some e =>
    if e.settled then w
    else
      let w1 := match e.outcome with
        | .okP v => runCompletion e.completion v w
        | .errP _ => w
      { w1 with promStore := insertA w1.promStore pid { e with settled := true } }

/-- What a caller that was `awaiting pid` observes once the promise settles. -/
def awaitResult (w : World) (pid : Nat) : Option (Except DIError Value) :=
  match lookupA w.promStore pid with
  | some e =>
    if e.settled then
      some (match e.outcome with | .okP v => .ok v | .errP er => .error er)
    else none
  | none => none

/-- `n` further `resolveAsync` calls against the same descriptor, issued
before anything settles; an erroring call leaves the world unchanged. -/
def resolveAsyncTimes (fuel : Nat) (regs : Registry) (d : ServiceDescriptor)
    (fs : Bool) (stack : List Frame) :
    Nat → World → List (Except DIError ARes) × World
  | 0, w => ([], w)
  | n + 1, w =>
    match resolveDescriptorAsync fuel regs d fs stack w with
    | .ok (r, w') =>
      let rest := resolveAsyncTimes fuel regs d fs stack n w'
      (.ok r :: rest.1, rest.2)
    | .error e =>
      let rest := resolveAsyncTimes fuel regs d fs stack n w
      (.error e :: rest.1, rest.2)

/-! ## resolveMap -/

/-- The loop body of `ServiceProvider.resolveMap`: for each descriptor under
the token, in order — fail if it has no key, fail if the accumulated record
already holds a *defined* value at that key (`map[d.key] !== undefined`),
otherwise resolve it (no scope, fresh path) and store it. -/
def resolveMapGo (fuel : Nat) (regs : Registry) (t : Nat) :
    List ServiceDescriptor → List (Nat × Value) → World →
    Except DIError (List (Nat × Value) × World)
  | [], acc, w => .ok (acc, w)
  | d :: rest, acc, w =>
    match d.key with
    | none => .error (.mapRequiresKey t)
    | some k =>
      if (lookupA acc k).getD .undef ≠ .undef then .error (.mapDuplicateKey t k)
      else
        match resolveDescriptorSync fuel regs d false [] w with
        | .ok (.value v, w') => resolveMapGo fuel regs t rest (insertA acc k v) w'
        | .ok (.promiseRes _, _) => .error (.asyncFactory none none [])
        | .error e => .error e

/-- `ServiceProvider.resolveMap token` (an empty descriptor list yields `{}`). -/
def resolveMap (fuel : Nat) (regs : Registry) (t : Nat) (w : World) :
    Except DIError (List (Nat × Value) × World) :=
  resolveMapGo fuel regs t (regs.filter (fun d => d.token = t)) [] w

/-! ## Disposal -/

/-- One emitted disposal action, in execution order. -/
inductive DispEvent where
  | hook (label : Nat)
  | instanceDisposed (descId : Nat)
  | customDisposed (descId : Nat)
deriving DecidableEq, Repr

/-- Stable insertion (for the hook sort `(a, b) => b.priority - a.priority`,
which JavaScript guarantees to be stable): the new element goes after every
element with priority ≥ its own. -/
def insertHook (h : Hook) : List Hook → List Hook
  | [] => [h]
  | x :: xs => if h.priority ≤ x.priority then x :: insertHook h xs else h :: x :: xs

/-- Hooks sorted by priority descending, registration order as tiebreak. -/
def sortHooksDesc (hooks : List Hook) : List Hook :=
  hooks.foldl (fun acc h => insertHook h acc) []

/-- An item of `sortByPriorityAndOrder`: descriptor id, its `disposePriority`
and its index in the list being sorted. -/
structure DispItem where
  descId : Nat
  priority : Int
  idx : Nat
deriving DecidableEq, Repr

/-- The comparator of `sortByPriorityAndOrder`: `a` precedes `b` iff `a` has
strictly higher priority, or equal priority and the larger original index
(reverse creation order within a tier). -/
def dispBefore (a b : DispItem) : Bool :=
  a.priority > b.priority ∨ (a.priority = b.priority ∧ a.idx > b.idx)

def insertDisp (it : DispItem) : List DispItem → List DispItem
  | [] => [it]
  | x :: xs => if dispBefore x it then x :: insertDisp it xs else it :: x :: xs

/-- `sortByPriorityAndOrder` (priority descending, index descending on ties). -/
def sortDisp (l : List DispItem) : List DispItem :=
  l.foldl (fun acc it => insertDisp it acc) []

/-- `disposePriority` of the descriptor with the given id (0 if unknown). -/
def prioOf (regs : Registry) (i : Nat) : Int :=
  ((regs.find? (fun d => d.id = i)).map (fun d => d.disposePriority)).getD 0

/-- Whether the descriptor with the given id carries a custom disposer. -/
def hasCustomDispose (regs : Registry) (i : Nat) : Bool :=
  ((regs.find? (fun d => d.id = i)).map (fun d => d.customDispose)).getD false

def toItems (regs : Registry) (ids : List Nat) : List DispItem :=
  (ids.enum).map (fun p => ⟨p.2, prioOf regs p.2, p.1⟩)

/-- `ServiceScope.dispose`: on the first call, run the manual hooks (priority
descending, stable), then dispose the materialized scoped instances
(`sortByPriorityAndOrder` over the instances present and defined, in
resolution order), then run the descriptor-level custom disposers (same sort
over the resolution order filtered to descriptors that carry one), then clear
the scope's caches and mark it disposed.  Later calls do nothing. -/
def scopeDispose (regs : Registry) (sc : ScopeSt) : List DispEvent × ScopeSt :=
  if sc.disposed then ([], sc)
  else
    let hookEvents := (sortHooksDesc sc.disposeHandlers).map (fun h => DispEvent.hook h.label)
    let survivors := sc.resolutionOrder.filter (fun i =>
      match lookupA sc.scopedInstances i with
      | some v => v ≠ .undef
      | none => false)
    let instEvents := (sortDisp (toItems regs survivors)).map
      (fun it => DispEvent.instanceDisposed it.descId)
    let customs := sc.resolutionOrder.filter (fun i => hasCustomDispose regs i)
    let customEvents := (sortDisp (toItems regs customs)).map
      (fun it => DispEvent.customDisposed it.descId)
    (hookEvents ++ instEvents ++ customEvents,
     { scopedInstances := [], scopedPromises := [],
       disposeHandlers := sc.disposeHandlers, resolutionOrder := [],
       disposed := true })

/-- `ServiceProvider.dispose`: run the manual hooks, dispose materialized
singleton instances and custom disposers (both ordered like the scope's), then
reset the provider-local singleton state.  The provider has no `disposed`
flag and its `disposeHandlers` array is NOT cleared; the process-global caches
are not touched at all. -/
def providerDispose (regs : Registry) (w : World) : List DispEvent × World :=
  let hookEvents := (sortHooksDesc w.prov.disposeHandlers).map (fun h => DispEvent.hook h.label)
  let survivors := w.prov.singletonOrder.filter (fun i =>
    match lookupA w.prov.singletons i with
    | some v => v ≠ .undef
    | none => false)
  let instEvents := (sortDisp (toItems regs survivors)).map
    (fun it => DispEvent.instanceDisposed it.descId)
  let customs := w.prov.singletonOrder.filter (fun i => hasCustomDispose regs i)
  let customEvents := (sortDisp (toItems regs customs)).map
    (fun it => DispEvent.customDisposed it.descId)
  (hookEvents ++ instEvents ++ customEvents,
   { w with prov := ⟨[], [], [], w.prov.disposeHandlers⟩ })

/-! ## Registration (`ServiceCollection.addDescriptor`) -/

structure CollectionDefaults where
  allowOverwrite : Bool
  defaultMultiple : Bool
deriving DecidableEq, Repr

/-- The collection's token → descriptor-list map. -/
abbrev Collection := List (Nat × List ServiceDescriptor)

/-- `ServiceCollection.addDescriptor`: refuse when not `multiple`, overwrite
disallowed and the token's list is non-empty; else append (`multiple`) or
replace the token's whole list (single). -/
def addDescriptor (defaults : CollectionDefaults) (coll : Collection)
    (d : ServiceDescriptor) (multipleOpt : Option Bool) :
    Except DIError Collection :=
  let existing := (lookupA coll d.token).getD []
  let multiple := multipleOpt.getD defaults.defaultMultiple
  if multiple = false ∧ defaults.allowOverwrite = false ∧ existing ≠ [] then
    .error (.duplicateRegistration d.token)
  else if multiple then .ok (insertA coll d.token (existing ++ [d]))
  else .ok (insertA coll d.token [d])

/-! ## Auxiliary predicates used in claim statements -/

/-- No materialized value sits in the cache tier of `d`'s lifetime (for the
`WeakMap`/`Map.get`-based tiers a stored `undefined` counts as absent, exactly
as the `!== undefined` guards do; the scoped sync path additionally consults
`scopedInstances.has`, so there the entry must be truly absent). -/
def noCachedValue (d : ServiceDescriptor) (w : World) : Prop :=
  match d.lifetime with
  | .Singleton => (lookupA w.prov.singletons d.id).getD .undef = .undef
  | .GlobalSingleton => lookupA w.glob.globalCache (globalKeyFor d) = none
  | .Scoped => lookupA w.scopeSt.scopedInstances d.id = none
  | .Transient => True

/-- An asynchronous materialization for `d`'s cache key is in flight. -/
def pendingInFlight (d : ServiceDescriptor) (w : World) : Prop :=
  match d.lifetime with
  | .Singleton => (lookupA w.prov.singletonPromises d.id).isSome = true
  | .GlobalSingleton => (lookupA w.glob.globalPromises (globalKeyFor d)).isSome = true
  | .Scoped => (lookupA w.scopeSt.scopedPromises d.id).isSome = true
  | .Transient => False

/-- The factory is intrinsically asynchronous (returns a pending awaitable). -/
def isAsyncFactoryExp : FExp → Bool
  | .asyncConst _ => true
  | .asyncFail _ => true
  | _ => false

/-- A factory body that performs no nested resolution. -/
def simpleFactory : FExp → Bool
  | .resolveTok _ _ _ => false
  | _ => true

/-- The computation failed with `AsyncFactoryError`. -/
def isAsyncFactoryError {α : Type} : Except DIError α → Prop
  | .error (.asyncFactory _ _ _) => True
  | _ => False

/-- The computation succeeded. -/
def exOk {α : Type} : Except DIError α → Bool
  | .ok _ => true
  | .error _ => false

/-! # The claims -/

/-! ## C9 — registration policy (corrected) -/

/-- **C9 (amended)**: `addDescriptor` fails with DuplicateRegistration exactly
when `multiple` is off, overwrite is disallowed and the token's descriptor
list is non-empty — whether its occupants are keyed or unkeyed; otherwise it
appends to the token's list (`multiple`) or replaces the token's whole
existing list (single registration). -/
theorem addDescriptor_occupied_slot_policy (defaults : CollectionDefaults)
    (coll : Collection) (d : ServiceDescriptor) (multipleOpt : Option Bool) :
    (addDescriptor defaults coll d multipleOpt =
        .error (.duplicateRegistration d.token)
      ↔ (multipleOpt.getD defaults.defaultMultiple = false ∧
         defaults.allowOverwrite = false ∧ (lookupA coll d.token).getD [] ≠ []))
    ∧ (multipleOpt.getD defaults.defaultMultiple = true →
        addDescriptor defaults coll d multipleOpt =
          .ok (insertA coll d.token (((lookupA coll d.token).getD []) ++ [d])))
    ∧ (multipleOpt.getD defaults.defaultMultiple = false →
       defaults.allowOverwrite = true →
        addDescriptor defaults coll d multipleOpt =
          .ok (insertA coll d.token [d])) := by
  refine ⟨?_, ?_, ?_⟩
  · constructor
    · intro h
      by_contra hc
      simp only [addDescriptor] at h
      split at h
      · next hcond => exact hc hcond
      · split at h <;> simp_all
    · intro ⟨h1, h2, h3⟩
      simp [addDescriptor, h1, h2, h3]
  · intro h
    simp [addDescriptor, h]
  · intro h1 h2
    simp [addDescriptor, h1, h2]

/-- A witness instantiating `addDescriptor_occupied_slot_policy` [C9]. -/
def c9occupant : ServiceDescriptor :=
  ⟨20, 1, some 10, .Singleton, .constv (.vnat 1), none, 0, false⟩

def c9next : ServiceDescriptor :=
  ⟨21, 1, some 11, .Singleton, .constv (.vnat 2), none, 0, false⟩

/-- **C9 counterexample**: the descriptor occupying token 1's slot is *keyed*
(`key = some 10`), not "a conflicting unkeyed descriptor", and the incoming
registration is keyed differently — yet `addDescriptor` still fails with
DuplicateRegistration, contradicting the claim that in every case other than
an unkeyed occupant the registration succeeds. -/
theorem addDescriptor_keyed_occupant_rejected_cex :
    c9occupant.key = some 10 ∧ c9next.key = some 11 ∧
    addDescriptor ⟨false, false⟩ [(1, [c9occupant])] c9next none =
      .error (.duplicateRegistration 1) := by
  refine ⟨rfl, rfl, ?_⟩
  rfl

/-! ## C7 — provider disposal leaves the global tier alone (corrected) -/

/-- **C7 (amended)**: `ServiceProvider.dispose` leaves the process-global
GlobalSingleton cache and its in-flight promise table (and the scope state and
promise store) unchanged — every cached GlobalSingleton value is still present
and identical afterwards — and clears the provider-local singleton cache,
in-flight table and resolution order; the registered dispose handlers are
*kept* (they are not cleared). -/
theorem providerDispose_global_frame (regs : Registry) (w : World) :
    ((providerDispose regs w).2).glob = w.glob
    ∧ (∀ gk, lookupA ((providerDispose regs w).2).glob.globalCache gk =
          lookupA w.glob.globalCache gk)
    ∧ (∀ gk, lookupA ((providerDispose regs w).2).glob.globalPromises gk =
          lookupA w.glob.globalPromises gk)
    ∧ ((providerDispose regs w).2).prov.singletons = []
    ∧ ((providerDispose regs w).2).prov.singletonPromises = []
    ∧ ((providerDispose regs w).2).prov.singletonOrder = []
    ∧ ((providerDispose regs w).2).prov.disposeHandlers = w.prov.disposeHandlers
    ∧ ((providerDispose regs w).2).scopeSt = w.scopeSt
    ∧ ((providerDispose regs w).2).promStore = w.promStore := by
  simp [providerDispose]

/-- **C7 counterexample**: a provider with one registered dispose handler
still holds that handler after `dispose()` — the claim that "the dispose-
handler state is cleared" is false (a second `dispose()` would re-run it; the
code has no `disposed` flag and never resets `disposeHandlers`). -/
theorem providerDispose_keeps_handlers_cex :
    ((providerDispose []
        { emptyWorld with prov := ⟨[], [], [], [⟨0, 7⟩]⟩ }).2).prov.disposeHandlers
      = [⟨0, 7⟩] := by
  decide

/-! ## C5 — descriptor selection (confirmed) -/

theorem find?_eq_of_unique {α : Type} (p : α → Bool) (l : List α) (d : α)
    (hd : d ∈ l) (hp : p d = true)
    (huniq : ∀ x ∈ l, p x = true → x = d) : l.find? p = some d := by
  induction l with
  | nil => cases hd
  | cons x xs ih =>
    by_cases hx : p x = true
    · have hxd : x = d := huniq x (List.mem_cons_self x xs) hx
      subst hxd
      simp [List.find?, hx]
    · have hxd : d ≠ x := by
        intro h
        exact hx (h ▸ hp)
      have hd' : d ∈ xs := by
        rcases List.mem_cons.mp hd with h | h
        · exact absurd h hxd
        · exact h
      have hfx : p x = false := Bool.eq_false_iff.mpr hx
      simp only [List.find?, hfx]
      exact ih hd' (fun y hy hpy => huniq y (List.mem_cons_of_mem _ hy) hpy)

/-- **C5**: descriptor selection and the missing-service failure, for both
resolution modes.  (1) With no key, `resolveInternal` — synchronous and
asynchronous — dispatches to the *last* descriptor registered for the token.
(2) With a key, both modes dispatch to the (unique) descriptor whose key
matches exactly.  (3)/(4) When no descriptor for the token (resp. no
descriptor carrying the requested key) exists and the token is not optional,
both `resolve` and `resolveAsync` fail with `MissingService`. -/
theorem pickDescriptor_semantics :
    (∀ (fuel : Nat) (regs : Registry) (t : Nat) (fs : Bool) (stack : List Frame)
       (w : World) (l : List ServiceDescriptor) (d : ServiceDescriptor),
      regs.filter (fun x => x.token = t) = l ++ [d] →
      (t, frameKey d.key none) ∉ stack →
      resolveInternalSync (fuel + 1) regs t false none fs stack w =
        resolveDescriptorSync fuel regs d fs (stack ++ [(t, frameKey d.key none)]) w
      ∧ resolveInternalAsync fuel regs t false none fs stack w =
        resolveDescriptorAsync fuel regs d fs (stack ++ [(t, frameKey d.key none)]) w)
    ∧ (∀ (fuel : Nat) (regs : Registry) (t k : Nat) (fs : Bool)
         (stack : List Frame) (w : World) (d : ServiceDescriptor),
      d ∈ regs → d.token = t → d.key = some k →
      (∀ d' ∈ regs, d'.token = t → d'.key = some k → d' = d) →
      (t, some k) ∉ stack →
      resolveInternalSync (fuel + 1) regs t false (some k) fs stack w =
        resolveDescriptorSync fuel regs d fs (stack ++ [(t, some k)]) w
      ∧ resolveInternalAsync fuel regs t false (some k) fs stack w =
        resolveDescriptorAsync fuel regs d fs (stack ++ [(t, some k)]) w)
    ∧ (∀ (fuel : Nat) (regs : Registry) (t : Nat) (fs : Bool)
         (stack : List Frame) (w : World),
      (∀ d ∈ regs, d.token ≠ t) →
      resolveInternalSync (fuel + 1) regs t false none fs stack w =
        .error (.missingService t none)
      ∧ resolveInternalAsync fuel regs t false none fs stack w =
        .error (.missingService t none))
    ∧ (∀ (fuel : Nat) (regs : Registry) (t k : Nat) (fs : Bool)
         (stack : List Frame) (w : World),
      (∀ d ∈ regs, d.token = t → d.key ≠ some k) →
      resolveInternalSync (fuel + 1) regs t false (some k) fs stack w =
        .error (.missingService t (some k))
      ∧ resolveInternalAsync fuel regs t false (some k) fs stack w =
        .error (.missingService t (some k))) := by
  refine ⟨?_, ?_, ?_, ?_⟩
  · intro fuel regs t fs stack w l d hfilter hstack
    have hpick : pickDescriptor regs t none = some d := by
      simp [pickDescriptor, hfilter]
    constructor
    · simp [resolveInternalSync, resolveDescriptorSync, syncStep, hpick, hstack]
    · simp [resolveInternalAsync, hpick, hstack]
  · intro fuel regs t k fs stack w d hmem htok hkey huniq hstack
    have hdf : d ∈ regs.filter (fun x => x.token = t) := by
      simp [List.mem_filter, hmem, htok]
    have hpick : pickDescriptor regs t (some k) = some d := by
      simp only [pickDescriptor]
      exact find?_eq_of_unique _ _ d hdf (by simp [hkey])
        (fun x hx hpx => huniq x (List.mem_filter.mp hx).1
          (by simpa using (List.mem_filter.mp hx).2) (by simpa using hpx))
    have hframe : frameKey d.key (some k) = some k := by
      simp [frameKey, hkey]
    constructor
    · simp [resolveInternalSync, resolveDescriptorSync, syncStep, hpick, hframe,
        hstack]
    · simp [resolveInternalAsync, hpick, hframe, hstack]
  · intro fuel regs t fs stack w hnone
    have hfilter : regs.filter (fun x => x.token = t) = [] :=
      List.filter_eq_nil_iff.mpr (fun d hd => by simpa using hnone d hd)
    constructor
    · simp [resolveInternalSync, syncStep, pickDescriptor, hfilter]
    · simp [resolveInternalAsync, pickDescriptor, hfilter]
  · intro fuel regs t k fs stack w hnone
    have hfind : (regs.filter (fun x => x.token = t)).find?
        (fun d => d.key = some k) = none := by
      apply List.find?_eq_none.mpr
      intro x hx
      have := List.mem_filter.mp hx
      simpa using hnone x this.1 (by simpa using this.2)
    constructor
    · simp [resolveInternalSync, syncStep, pickDescriptor, hfind]
    · simp [resolveInternalAsync, pickDescriptor, hfind]

/-! ## C1 — singleton / global-singleton caching (corrected) -/

/-- **C1 (amended)**: (1) a successful synchronous resolution of a Singleton
descriptor whose materialized value is *not* `undefined` leaves that value in
the provider-local cache; (2) with the value cached, every further
`resolve`/`resolveAsync` against the same provider returns the identical
value and leaves the world — including the factory-invocation count —
untouched, so the factory runs at most once per descriptor per provider;
(3) a successful synchronous resolution of a GlobalSingleton descriptor
always caches the value under its process-global cache key (the global tier
uses `Map.has`, so even `undefined` stays cached); (4) with the global cache
populated, every further `resolve`/`resolveAsync` — through *any* provider of
the process, i.e. for every provider-local state `p` — returns the identical
value and leaves the world untouched.  (A Singleton factory materializing
`undefined` is re-invoked on later resolves; see the counterexample.) -/
theorem singleton_cache_amended :
    (∀ (fuel : Nat) (regs : Registry) (d : ServiceDescriptor) (fs : Bool)
       (stack : List Frame) (w : World) (v : Value) (w' : World),
      d.lifetime = .Singleton →
      resolveDescriptorSync fuel regs d fs stack w = .ok (.value v, w') →
      v ≠ .undef →
      lookupA w'.prov.singletons d.id = some v)
    ∧ (∀ (fuel : Nat) (regs : Registry) (d : ServiceDescriptor) (fs : Bool)
         (stack : List Frame) (w : World) (v : Value),
      d.lifetime = .Singleton →
      lookupA w.prov.singletons d.id = some v → v ≠ .undef →
      resolveDescriptorSync (fuel + 1) regs d fs stack w = .ok (.value v, w)
      ∧ resolveDescriptorAsync fuel regs d fs stack w = .ok (.done v, w))
    ∧ (∀ (fuel : Nat) (regs : Registry) (d : ServiceDescriptor) (fs : Bool)
         (stack : List Frame) (w : World) (v : Value) (w' : World),
      d.lifetime = .GlobalSingleton →
      resolveDescriptorSync fuel regs d fs stack w = .ok (.value v, w') →
      lookupA w'.glob.globalCache (globalKeyFor d) = some v)
    ∧ (∀ (fuel : Nat) (regs : Registry) (d : ServiceDescriptor) (fs : Bool)
         (stack : List Frame) (w : World) (v : Value) (p : ProvSt),
      d.lifetime = .GlobalSingleton →
      lookupA w.glob.globalCache (globalKeyFor d) = some v →
      resolveDescriptorSync (fuel + 1) regs d fs stack { w with prov := p } =
        .ok (.value v, { w with prov := p })
      ∧ resolveDescriptorAsync fuel regs d fs stack { w with prov := p } =
        .ok (.done v, { w with prov := p })) := by
  refine ⟨?_, ?_, ?_, ?_⟩
  · intro fuel regs d fs stack w v w' hlt hres hv
    cases fuel with
    | zero => simp [resolveDescriptorSync, syncStep] at hres
    | succ fuel =>
      simp only [resolveDescriptorSync, syncStep, hlt] at hres
      by_cases hcache : (lookupA w.prov.singletons d.id).getD .undef = Value.undef
      · rw [if_neg (by simpa using hcache)] at hres
        by_cases hpend : (lookupA w.prov.singletonPromises d.id).isSome = true
        · simp [hpend] at hres
        · simp only [Bool.not_eq_true] at hpend
          rw [if_neg (by simp [hpend])] at hres
          cases hmat : syncStep regs fuel (.mat d fs stack) w with
          | error e => rw [hmat] at hres; cases hres
          | ok p =>
            obtain ⟨r, w₀⟩ := p
            cases r with
            | value v₀ =>
              rw [hmat] at hres
              simp only [Except.ok.injEq, Prod.mk.injEq, FRes.value.injEq] at hres
              obtain ⟨hv₀, hw'⟩ := hres
              subst hv₀; subst hw'
              simp [setSingleton, lookupA_insertA_self]
            | promiseRes pid => rw [hmat] at hres; cases hres
      · rw [if_pos (by simpa using hcache)] at hres
        simp only [Except.ok.injEq, Prod.mk.injEq, FRes.value.injEq] at hres
        obtain ⟨hv₀, hw'⟩ := hres
        subst hw'
        cases hl : lookupA w.prov.singletons d.id with
        | none => rw [hl] at hv₀; simp at hv₀; exact absurd hv₀.symm hv
        | some u => rw [hl] at hv₀; simp at hv₀; rw [hv₀]
  · intro fuel regs d fs stack w v hlt hcache hv
    constructor
    · simp [resolveDescriptorSync, syncStep, hlt, hcache, hv]
    · simp [resolveDescriptorAsync, hlt, hcache, hv]
  · intro fuel regs d fs stack w v w' hlt hres
    cases fuel with
    | zero => simp [resolveDescriptorSync, syncStep] at hres
    | succ fuel =>
      simp only [resolveDescriptorSync, syncStep, hlt] at hres
      cases hcache : lookupA w.glob.globalCache (globalKeyFor d) with
      | some u =>
        rw [hcache] at hres
        simp only [Except.ok.injEq, Prod.mk.injEq, FRes.value.injEq] at hres
        obtain ⟨hv₀, hw'⟩ := hres
        subst hw'; rw [hcache, hv₀]
      | none =>
        rw [hcache] at hres
        by_cases hpend : (lookupA w.glob.globalPromises (globalKeyFor d)).isSome = true
        · simp [hpend] at hres
        · simp only [Bool.not_eq_true] at hpend
          rw [if_neg (by simp [hpend])] at hres
          cases hmat : syncStep regs fuel (.mat d fs stack) w with
          | error e => rw [hmat] at hres; cases hres
          | ok p =>
            obtain ⟨r, w₀⟩ := p
            cases r with
            | value v₀ =>
              rw [hmat] at hres
              simp only [Except.ok.injEq, Prod.mk.injEq, FRes.value.injEq] at hres
              obtain ⟨hv₀, hw'⟩ := hres
              subst hv₀; subst hw'
              simp [setGlobalCache, lookupA_insertA_self]
            | promiseRes pid => rw [hmat] at hres; cases hres
  · intro fuel regs d fs stack w v p hlt hcache
    constructor
    · simp [resolveDescriptorSync, syncStep, hlt, hcache]
    · simp [resolveDescriptorAsync, hlt, hcache]

/-- Registry for the C1 counterexample: a Singleton whose factory returns
`undefined`. -/
def c1undefDesc : ServiceDescriptor :=
  ⟨3, 3, none, .Singleton, .constv .undef, none, 0, false⟩

def c1regs : Registry := [c1undefDesc]

/-- World after the first `provider.resolve` of the undefined singleton. -/
def c1w1 : World :=
  match providerResolve 10 c1regs 3 none emptyWorld with
  | .ok (_, w) => w
  | .error _ => emptyWorld

/-- World after the second `provider.resolve` of the undefined singleton. -/
def c1w2 : World :=
  match providerResolve 10 c1regs 3 none c1w1 with
  | .ok (_, w) => w
  | .error _ => emptyWorld

/-- **C1 counterexample**: both resolves of the Singleton succeed (returning
`undefined`), yet the factory has been invoked twice — the `!== undefined`
cache guard treats the cached `undefined` as a miss, so "the factory is
invoked at most once per descriptor per provider" is false as stated. -/
theorem singleton_undef_refetched_cex :
    providerResolve 10 c1regs 3 none emptyWorld = .ok (.value .undef, c1w1)
    ∧ providerResolve 10 c1regs 3 none c1w1 = .ok (.value .undef, c1w2)
    ∧ countOf c1w1 3 = 1 ∧ countOf c1w2 3 = 2 := by
  refine ⟨by rfl, by rfl, by rfl, by rfl⟩

/-! ## C3 — synchronous resolution never yields a pending value (confirmed) -/

/-- **C3**: for every descriptor whose cache tier holds no materialized value
(and, when Scoped, resolved with an active scope): (a) if its factory is
intrinsically asynchronous, synchronous resolution fails with
`AsyncFactoryError`; (b) if an asynchronous materialization for its cache key
is in flight, synchronous resolution fails with `AsyncFactoryError`.  In both
situations it neither returns `undefined` nor a pending value. -/
theorem sync_resolve_async_misuse :
    (∀ (fuel : Nat) (regs : Registry) (d : ServiceDescriptor) (fs : Bool)
       (stack : List Frame) (w : World),
      isAsyncFactoryExp d.factory = true →
      noCachedValue d w →
      (d.lifetime = .Scoped → fs = true) →
      isAsyncFactoryError (resolveDescriptorSync (fuel + 3) regs d fs stack w))
    ∧ (∀ (fuel : Nat) (regs : Registry) (d : ServiceDescriptor) (fs : Bool)
         (stack : List Frame) (w : World),
      pendingInFlight d w →
      noCachedValue d w →
      (d.lifetime = .Scoped → fs = true) →
      isAsyncFactoryError (resolveDescriptorSync (fuel + 1) regs d fs stack w)) := by
  constructor
  · intro fuel regs d fs stack w hfac hcache hscope
    cases hlt : d.lifetime with
    | Singleton =>
      simp only [noCachedValue, hlt] at hcache
      by_cases hpend : (lookupA w.prov.singletonPromises d.id).isSome = true
      · simp [resolveDescriptorSync, syncStep, hlt, hcache, hpend, isAsyncFactoryError]
      · cases hf : d.factory <;> rw [hf] at hfac <;> simp [isAsyncFactoryExp] at hfac <;>
          simp [resolveDescriptorSync, syncStep, hlt, hcache, hpend, hf,
            isAsyncFactoryError, mkPromise]
    | GlobalSingleton =>
      simp only [noCachedValue, hlt] at hcache
      by_cases hpend : (lookupA w.glob.globalPromises (globalKeyFor d)).isSome = true
      · simp [resolveDescriptorSync, syncStep, hlt, hcache, hpend, isAsyncFactoryError]
      · cases hf : d.factory <;> rw [hf] at hfac <;> simp [isAsyncFactoryExp] at hfac <;>
          simp [resolveDescriptorSync, syncStep, hlt, hcache, hpend, hf,
            isAsyncFactoryError, mkPromise]
    | Scoped =>
      simp only [noCachedValue, hlt] at hcache
      have hfs := hscope hlt
      by_cases hpend : (lookupA w.scopeSt.scopedPromises d.id).isSome = true
      · simp [resolveDescriptorSync, syncStep, hlt, hfs, hcache, hpend, isAsyncFactoryError]
      · cases hf : d.factory <;> rw [hf] at hfac <;> simp [isAsyncFactoryExp] at hfac <;>
          simp [resolveDescriptorSync, syncStep, hlt, hfs, hcache, hpend, hf,
            isAsyncFactoryError, mkPromise]
    | Transient =>
      cases hf : d.factory <;> rw [hf] at hfac <;> simp [isAsyncFactoryExp] at hfac <;>
        simp [resolveDescriptorSync, syncStep, hlt, hf, isAsyncFactoryError, mkPromise]
  · intro fuel regs d fs stack w hpend hcache hscope
    cases hlt : d.lifetime with
    | Singleton =>
      simp only [pendingInFlight, hlt] at hpend
      simp only [noCachedValue, hlt] at hcache
      simp [resolveDescriptorSync, syncStep, hlt, hcache, hpend, isAsyncFactoryError]
    | GlobalSingleton =>
      simp only [pendingInFlight, hlt] at hpend
      simp only [noCachedValue, hlt] at hcache
      simp [resolveDescriptorSync, syncStep, hlt, hcache, hpend, isAsyncFactoryError]
    | Scoped =>
      simp only [pendingInFlight, hlt] at hpend
      have hfs := hscope hlt
      simp [resolveDescriptorSync, syncStep, hlt, hfs, hpend, isAsyncFactoryError]
    | Transient =>
      simp [pendingInFlight, hlt] at hpend

/-! ## C8 — resolveMap (corrected) -/

/-- Spec reading of `resolveMap` ("a record mapping each descriptor's key to
the value resolved for that descriptor"): resolve each descriptor under the
token in registration order and pair its key with the resolved value. -/
def resolveMapOrdered (fuel : Nat) (regs : Registry) :
    List ServiceDescriptor → World → Except DIError (List (Nat × Value) × World)
  | [], w => .ok ([], w)
  | d :: rest, w =>
    match resolveDescriptorSync fuel regs d false [] w with
    | .ok (.value v, w') =>
      match resolveMapOrdered fuel regs rest w' with
      | .ok (m, w'') => .ok ((d.key.getD 0, v) :: m, w'')
      | .error e => .error e
    | .ok (.promiseRes _, _) => .error (.asyncFactory none none [])
    | .error e => .error e

theorem insertA_eq_append {κ β : Type} [DecidableEq κ]
    (l : List (κ × β)) (k : κ) (v : β) (h : lookupA l k = none) :
    insertA l k v = l ++ [(k, v)] := by
  induction l with
  | nil => simp [insertA]
  | cons p rest ih =>
    obtain ⟨k₀, v₀⟩ := p
    by_cases h0 : k₀ = k
    · simp [lookupA, h0] at h
    · simp only [lookupA, if_neg h0] at h
      simp [insertA, h0, ih h]

theorem resolveMapGo_ordered (fuel : Nat) (regs : Registry) (t : Nat) :
    ∀ (ds : List ServiceDescriptor) (acc : List (Nat × Value)) (w : World),
    (∀ d ∈ ds, d.key.isSome = true) →
    (ds.map (fun d => d.key)).Nodup →
    (∀ d ∈ ds, lookupA acc (d.key.getD 0) = none) →
    resolveMapGo fuel regs t ds acc w =
      (resolveMapOrdered fuel regs ds w).map (fun p => (acc ++ p.1, p.2)) := by
  intro ds
  induction ds with
  | nil => intro acc w _ _ _; simp [resolveMapGo, resolveMapOrdered, Except.map]
  | cons d rest ih =>
    intro acc w hkeys hnodup hfresh
    obtain ⟨k, hk⟩ := Option.isSome_iff_exists.mp (hkeys d (List.mem_cons_self d rest))
    have hfreshd : lookupA acc k = none := by
      have := hfresh d (List.mem_cons_self d rest)
      rwa [hk, Option.getD_some] at this
    simp only [resolveMapGo, resolveMapOrdered, hk]
    rw [if_neg (by simp [hfreshd])]
    cases hres : resolveDescriptorSync fuel regs d false [] w with
    | error e => simp [Except.map]
    | ok p =>
      obtain ⟨r, w'⟩ := p
      cases r with
      | promiseRes pid => simp [Except.map]
      | value v =>
        have hcons : (d.key :: rest.map (fun d => d.key)).Nodup := by
          simpa using hnodup
        have hrest : ∀ d' ∈ rest, lookupA (insertA acc k v) (d'.key.getD 0) = none := by
          intro d' hd'
          obtain ⟨k', hk'⟩ := Option.isSome_iff_exists.mp
            (hkeys d' (List.mem_cons_of_mem _ hd'))
          have hne : k' ≠ k := by
            intro hKK
            subst hKK
            have hmem : d.key ∈ rest.map (fun d => d.key) :=
              List.mem_map.mpr ⟨d', hd', by rw [hk', hk]⟩
            exact (List.nodup_cons.mp hcons).1 hmem
          rw [hk', Option.getD_some, lookupA_insertA_ne acc k k' v hne]
          have := hfresh d' (List.mem_cons_of_mem _ hd')
          rwa [hk', Option.getD_some] at this
        dsimp only
        rw [ih (insertA acc k v) w'
          (fun d' hd' => hkeys d' (List.mem_cons_of_mem _ hd'))
          (List.nodup_cons.mp hcons).2 hrest]
        rw [insertA_eq_append acc k v hfreshd]
        cases hord : resolveMapOrdered fuel regs rest w' with
        | error e => simp [Except.map]
        | ok q =>
          obtain ⟨m, w''⟩ := q
          simp [Except.map, hk, List.append_assoc]

theorem resolveMapGo_missing_key (fuel : Nat) (regs : Registry) (t : Nat) :
    ∀ (ds : List ServiceDescriptor) (acc : List (Nat × Value)) (w : World),
    (∃ d ∈ ds, d.key = none) →
    ∃ e, resolveMapGo fuel regs t ds acc w = .error e := by
  intro ds
  induction ds with
  | nil => intro acc w h; simp at h
  | cons d rest ih =>
    intro acc w h
    cases hk : d.key with
    | none => exact ⟨.mapRequiresKey t, by simp [resolveMapGo, hk]⟩
    | some k =>
      obtain ⟨d', hd', hd'none⟩ := h
      have hd'rest : d' ∈ rest := by
        rcases List.mem_cons.mp hd' with hEq | hMem
        · subst hEq; rw [hk] at hd'none; cases hd'none
        · exact hMem
      simp only [resolveMapGo, hk]
      by_cases hdup : (lookupA acc k).getD Value.undef ≠ Value.undef
      · exact ⟨.mapDuplicateKey t k, by rw [if_pos hdup]⟩
      · rw [if_neg hdup]
        cases hres : resolveDescriptorSync fuel regs d false [] w with
        | error e => exact ⟨e, rfl⟩
        | ok p =>
          obtain ⟨r, w'⟩ := p
          cases r with
          | promiseRes pid => exact ⟨.asyncFactory none none [], rfl⟩
          | value v => exact ih (insertA acc k v) w' ⟨d', hd'rest, hd'none⟩

/-- Registry for the concrete duplicate-key error: two descriptors under
token 30 share key 5, and the first materializes a defined value. -/
def c8dupregs : Registry :=
  [⟨31, 30, some 5, .Transient, .constv (.vnat 1), none, 0, false⟩,
   ⟨32, 30, some 5, .Transient, .constv (.vnat 2), none, 0, false⟩]

/-- **C8 (amended)**: (1) when every descriptor under the token carries a key
and the keys are pairwise distinct, `resolveMap` returns exactly the record
pairing each descriptor's key with the value resolved for that descriptor (in
registration order); (2) whenever some descriptor under the token lacks a
key, `resolveMap` fails; (3) two descriptors sharing a key trigger the
duplicate-key error when the earlier resolved value is defined (concrete
instance) — but a duplicate whose earlier resolved value is `undefined` is
silently overwritten instead (see the counterexample). -/
theorem resolveMap_keyed_semantics :
    (∀ (fuel : Nat) (regs : Registry) (t : Nat) (w : World),
      (∀ d ∈ regs.filter (fun d => d.token = t), d.key.isSome = true) →
      ((regs.filter (fun d => d.token = t)).map (fun d => d.key)).Nodup →
      resolveMap fuel regs t w =
        resolveMapOrdered fuel regs (regs.filter (fun d => d.token = t)) w)
    ∧ (∀ (fuel : Nat) (regs : Registry) (t : Nat) (w : World),
      (∃ d ∈ regs.filter (fun d => d.token = t), d.key = none) →
      ∃ e, resolveMap fuel regs t w = .error e)
    ∧ resolveMap 10 c8dupregs 30 emptyWorld = .error (.mapDuplicateKey 30 5) := by
  refine ⟨?_, ?_, by rfl⟩
  · intro fuel regs t w hkeys hnodup
    rw [resolveMap, resolveMapGo_ordered fuel regs t _ [] w hkeys hnodup
      (fun d _ => by simp [lookupA])]
    cases h : resolveMapOrdered fuel regs (regs.filter (fun d => d.token = t)) w with
    | error e => simp [Except.map]
    | ok p => obtain ⟨m, w'⟩ := p; simp [Except.map]
  · intro fuel regs t w h
    exact resolveMapGo_missing_key fuel regs t _ [] w h

/-- Registry for the C8 counterexample: two descriptors under token 13 share
key 5, but the first one's factory materializes `undefined`. -/
def c8uregs : Registry :=
  [⟨13, 13, some 5, .Transient, .constv .undef, none, 0, false⟩,
   ⟨14, 13, some 5, .Transient, .constv (.vnat 7), none, 0, false⟩]

/-- **C8 counterexample**: token 13 has two descriptors with the *same* key 5,
yet `resolveMap` succeeds (the duplicate guard `map[d.key] !== undefined`
cannot see the first, `undefined`, entry and the second silently overwrites
it) — refuting "resolveMap raises an error whenever ... two descriptors under
the token share a key". -/
theorem resolveMap_dup_undef_slips_cex :
    (c8uregs.filter (fun d => d.token = 13)).map (fun d => d.key)
      = [some 5, some 5]
    ∧ exOk (resolveMap 10 c8uregs 13 emptyWorld) = true := by
  exact ⟨by rfl, by rfl⟩

/-! ## C6 — scope disposal ordering (confirmed) -/

theorem mem_insertHook (h a : Hook) (l : List Hook) :
    a ∈ insertHook h l ↔ a = h ∨ a ∈ l := by
  induction l with
  | nil => simp [insertHook]
  | cons x xs ih =>
    by_cases hcmp : h.priority ≤ x.priority
    · simp only [insertHook, if_pos hcmp, List.mem_cons, ih]
      tauto
    · simp only [insertHook, if_neg hcmp, List.mem_cons]

theorem perm_insertHook (h : Hook) (l : List Hook) :
    List.Perm (insertHook h l) (h :: l) := by
  induction l with
  | nil => simp [insertHook]
  | cons x xs ih =>
    by_cases hcmp : h.priority ≤ x.priority
    · simp only [insertHook, if_pos hcmp]
      exact (List.Perm.cons x ih).trans (List.Perm.swap h x xs)
    · simp [insertHook, hcmp]

theorem pairwise_insertHook (h : Hook) (l : List Hook)
    (hl : l.Pairwise (fun a b => b.priority ≤ a.priority)) :
    (insertHook h l).Pairwise (fun a b => b.priority ≤ a.priority) := by
  induction l with
  | nil => simp [insertHook]
  | cons x xs ih =>
    rw [List.pairwise_cons] at hl
    obtain ⟨hx, hxs⟩ := hl
    by_cases hcmp : h.priority ≤ x.priority
    · simp only [insertHook, if_pos hcmp]
      rw [List.pairwise_cons]
      refine ⟨?_, ih hxs⟩
      intro a ha
      rcases (mem_insertHook h a xs).mp ha with rfl | hmem
      · exact hcmp
      · exact hx a hmem
    · simp only [insertHook, if_neg hcmp]
      rw [List.pairwise_cons]
      constructor
      · intro a ha
        rcases List.mem_cons.mp ha with rfl | hmem
        · exact le_of_lt (lt_of_not_le hcmp)
        · exact le_trans (hx a hmem) (le_of_lt (lt_of_not_le hcmp))
      · rw [List.pairwise_cons]
        exact ⟨hx, hxs⟩

theorem sortHooksAux_perm :
    ∀ (l acc : List Hook),
      List.Perm (l.foldl (fun acc h => insertHook h acc) acc) (acc ++ l) := by
  intro l
  induction l with
  | nil => intro acc; simp
  | cons h t ih =>
    intro acc
    have h1 := ih (insertHook h acc)
    have h2 : List.Perm (insertHook h acc ++ t) ((h :: acc) ++ t) :=
      (perm_insertHook h acc).append_right t
    exact (h1.trans h2).trans List.perm_middle.symm

theorem sortHooksAux_pairwise :
    ∀ (l acc : List Hook), acc.Pairwise (fun a b => b.priority ≤ a.priority) →
    (l.foldl (fun acc h => insertHook h acc) acc).Pairwise
      (fun a b => b.priority ≤ a.priority) := by
  intro l
  induction l with
  | nil => intro acc h; exact h
  | cons h t ih => intro acc hacc; exact ih _ (pairwise_insertHook h acc hacc)

theorem filter_insertHook (h : Hook) (l : List Hook) (p : Int)
    (hl : l.Pairwise (fun a b => b.priority ≤ a.priority)) :
    (insertHook h l).filter (fun x => x.priority = p) =
      if h.priority = p then (l.filter (fun x => x.priority = p)) ++ [h]
      else l.filter (fun x => x.priority = p) := by
  induction l with
  | nil => by_cases hp : h.priority = p <;> simp [insertHook, hp]
  | cons x xs ih =>
    rw [List.pairwise_cons] at hl
    obtain ⟨hx, hxs⟩ := hl
    by_cases hcmp : h.priority ≤ x.priority
    · simp only [insertHook, if_pos hcmp, List.filter_cons]
      rw [ih hxs]
      by_cases hp : h.priority = p <;> by_cases hxp : x.priority = p <;>
        simp [hp, hxp]
    · have hlt : x.priority < h.priority := lt_of_not_le hcmp
      simp only [insertHook, if_neg hcmp, List.filter_cons]
      by_cases hp : h.priority = p
      · have hxp : ¬ (x.priority = p) := by
          intro he
          rw [← hp] at he
          exact absurd (le_of_eq he.symm) hcmp
        have hxs0 : xs.filter (fun y => y.priority = p) = [] := by
          apply List.filter_eq_nil_iff.mpr
          intro y hy
          have hyx : y.priority ≤ x.priority := hx y hy
          simp only [decide_eq_true_eq]
          intro he
          rw [he, ← hp] at hyx
          exact hcmp hyx
        simp [hp, hxp, hxs0]
      · simp [hp]

theorem sortHooksAux_filter (p : Int) :
    ∀ (l acc : List Hook), acc.Pairwise (fun a b => b.priority ≤ a.priority) →
    (l.foldl (fun acc h => insertHook h acc) acc).filter (fun x => x.priority = p) =
      acc.filter (fun x => x.priority = p) ++ l.filter (fun x => x.priority = p) := by
  intro l
  induction l with
  | nil => intro acc _; simp
  | cons h t ih =>
    intro acc hacc
    rw [List.foldl_cons, ih _ (pairwise_insertHook h acc hacc),
        filter_insertHook h acc p hacc, List.filter_cons]
    by_cases hp : h.priority = p <;> simp [hp]

/-- `a` goes no later than `b` under the `sortByPriorityAndOrder` comparator:
higher priority first, larger original index first within a priority tier. -/
def dispGE (a b : DispItem) : Prop :=
  b.priority < a.priority ∨ (b.priority = a.priority ∧ b.idx ≤ a.idx)

theorem dispGE_trans {a b c : DispItem} (h1 : dispGE a b) (h2 : dispGE b c) :
    dispGE a c := by
  rcases h1 with h1 | ⟨h1, h1'⟩ <;> rcases h2 with h2 | ⟨h2, h2'⟩
  · exact Or.inl (lt_trans h2 h1)
  · exact Or.inl (h2 ▸ h1)
  · exact Or.inl (h1 ▸ h2)
  · exact Or.inr ⟨h2.trans h1, le_trans h2' h1'⟩

theorem dispGE_of_before {a b : DispItem} (h : dispBefore a b = true) : dispGE a b := by
  simp only [dispBefore, decide_eq_true_eq, Bool.decide_or, Bool.or_eq_true,
    decide_eq_true_eq, Bool.decide_and, Bool.and_eq_true] at h
  rcases h with h | ⟨h1, h2⟩
  · exact Or.inl h
  · exact Or.inr ⟨h1.symm, le_of_lt h2⟩

theorem dispGE_of_not_before {a b : DispItem} (h : dispBefore a b = false) :
    dispGE b a := by
  simp only [dispBefore, Bool.decide_or, Bool.or_eq_false_iff, decide_eq_false_iff_not,
    Bool.decide_and, Bool.and_eq_false_iff] at h
  obtain ⟨h1, h2⟩ := h
  rcases lt_trichotomy a.priority b.priority with hlt | heq | hgt
  · exact Or.inl hlt
  · rcases h2 with h2 | h2
    · exact absurd heq h2
    · exact Or.inr ⟨heq, le_of_not_lt h2⟩
  · exact absurd hgt h1

theorem mem_insertDisp (it a : DispItem) (l : List DispItem) :
    a ∈ insertDisp it l ↔ a = it ∨ a ∈ l := by
  induction l with
  | nil => simp [insertDisp]
  | cons x xs ih =>
    by_cases hcmp : dispBefore x it = true
    · simp only [insertDisp, if_pos hcmp, List.mem_cons, ih]
      tauto
    · simp only [insertDisp, if_neg hcmp, List.mem_cons]

theorem perm_insertDisp (it : DispItem) (l : List DispItem) :
    List.Perm (insertDisp it l) (it :: l) := by
  induction l with
  | nil => simp [insertDisp]
  | cons x xs ih =>
    by_cases hcmp : dispBefore x it = true
    · simp only [insertDisp, if_pos hcmp]
      exact (List.Perm.cons x ih).trans (List.Perm.swap it x xs)
    · simp [insertDisp, hcmp]

theorem pairwise_insertDisp (it : DispItem) (l : List DispItem)
    (hl : l.Pairwise dispGE) : (insertDisp it l).Pairwise dispGE := by
  induction l with
  | nil => simp [insertDisp]
  | cons x xs ih =>
    rw [List.pairwise_cons] at hl
    obtain ⟨hx, hxs⟩ := hl
    by_cases hcmp : dispBefore x it = true
    · simp only [insertDisp, if_pos hcmp]
      rw [List.pairwise_cons]
      refine ⟨?_, ih hxs⟩
      intro a ha
      rcases (mem_insertDisp it a xs).mp ha with rfl | hmem
      · exact dispGE_of_before hcmp
      · exact hx a hmem
    · simp only [insertDisp, if_neg hcmp]
      rw [List.pairwise_cons]
      have hge : dispGE it x := dispGE_of_not_before (Bool.eq_false_iff.mpr hcmp)
      constructor
      · intro a ha
        rcases List.mem_cons.mp ha with rfl | hmem
        · exact hge
        · exact dispGE_trans hge (hx a hmem)
      · rw [List.pairwise_cons]
        exact ⟨hx, hxs⟩

theorem sortDispAux_perm :
    ∀ (l acc : List DispItem),
      List.Perm (l.foldl (fun acc it => insertDisp it acc) acc) (acc ++ l) := by
  intro l
  induction l with
  | nil => intro acc; simp
  | cons it t ih =>
    intro acc
    have h1 := ih (insertDisp it acc)
    have h2 : List.Perm (insertDisp it acc ++ t) ((it :: acc) ++ t) :=
      (perm_insertDisp it acc).append_right t
    exact (h1.trans h2).trans List.perm_middle.symm

theorem sortDispAux_pairwise :
    ∀ (l acc : List DispItem), acc.Pairwise dispGE →
    (l.foldl (fun acc it => insertDisp it acc) acc).Pairwise dispGE := by
  intro l
  induction l with
  | nil => intro acc h; exact h
  | cons it t ih => intro acc hacc; exact ih _ (pairwise_insertDisp it acc hacc)

/-- Registry for the claim's concrete scenario: three scoped disposables with
`disposePriority` 1, 5, 1 registered and resolved in that order. -/
def c6regs : Registry :=
  [⟨10, 10, none, .Scoped, .fresh, none, 1, false⟩,
   ⟨11, 11, none, .Scoped, .fresh, none, 5, false⟩,
   ⟨12, 12, none, .Scoped, .fresh, none, 1, false⟩]

def c6w1 : World :=
  match scopeResolve 10 c6regs 10 none emptyWorld with
  | .ok (_, w) => w | .error _ => emptyWorld
def c6w2 : World :=
  match scopeResolve 10 c6regs 11 none c6w1 with
  | .ok (_, w) => w | .error _ => emptyWorld
def c6w3 : World :=
  match scopeResolve 10 c6regs 12 none c6w2 with
  | .ok (_, w) => w | .error _ => emptyWorld

/-- **C6**: `ServiceScope.dispose` ordering and idempotence.
(1) A disposed scope's `dispose` is a no-op.  (2) The first `dispose` marks
the scope disposed, so every later `dispose` emits nothing and changes
nothing.  (3) The manual-hook pass orders hooks by priority descending,
stably: the result is a permutation with non-increasing priorities in which
the hooks of each priority tier keep their registration order.  (4) The
instance/custom-disposer passes use `sortByPriorityAndOrder`: the result is a
permutation ordered by `disposePriority` descending with the larger original
(resolution) index first within a tier.  (5) Concretely, three scoped
disposables created at priorities [1, 5, 1] are disposed priority-5 instance
first, then the two priority-1 instances in reverse resolution order. -/
theorem scope_dispose_ordering :
    (∀ (regs : Registry) (sc : ScopeSt), sc.disposed = true →
      scopeDispose regs sc = ([], sc))
    ∧ (∀ (regs : Registry) (sc : ScopeSt),
      ((scopeDispose regs sc).2).disposed = true
      ∧ scopeDispose regs ((scopeDispose regs sc).2) = ([], (scopeDispose regs sc).2))
    ∧ (∀ l : List Hook, List.Perm (sortHooksDesc l) l
        ∧ (sortHooksDesc l).Pairwise (fun a b => b.priority ≤ a.priority)
        ∧ ∀ p : Int, (sortHooksDesc l).filter (fun x => x.priority = p)
            = l.filter (fun x => x.priority = p))
    ∧ (∀ l : List DispItem, List.Perm (sortDisp l) l ∧ (sortDisp l).Pairwise dispGE)
    ∧ ((scopeDispose c6regs c6w3.scopeSt).1 =
        [.instanceDisposed 11, .instanceDisposed 12, .instanceDisposed 10]
      ∧ prioOf c6regs 10 = 1 ∧ prioOf c6regs 11 = 5 ∧ prioOf c6regs 12 = 1
      ∧ c6w3.scopeSt.resolutionOrder = [10, 11, 12]) := by
  refine ⟨?_, ?_, ?_, ?_, by rfl, by rfl, by rfl, by rfl, by rfl⟩
  · intro regs sc h
    simp [scopeDispose, h]
  · intro regs sc
    by_cases h : sc.disposed = true
    · simp [scopeDispose, h]
    · constructor
      · simp [scopeDispose, Bool.eq_false_iff.mpr h]
      · have hdisp : ((scopeDispose regs sc).2).disposed = true := by
          simp [scopeDispose, Bool.eq_false_iff.mpr h]
        generalize hgen : (scopeDispose regs sc).2 = sc' at hdisp ⊢
        simp [scopeDispose, hdisp]
  · intro l
    refine ⟨by simpa using sortHooksAux_perm l [], sortHooksAux_pairwise l [] (by simp), ?_⟩
    intro p
    simpa using sortHooksAux_filter p l [] (by simp)
  · intro l
    exact ⟨by simpa using sortDispAux_perm l [], sortDispAux_pairwise l [] (by simp)⟩

/-! ## C2 — cycle detection (code bug for synchronous Scoped resolution) -/

/-- Scoped A↔B cycle: each factory resolves the other token through the
resolver handed to it.  In the code, `resolveDescriptorSync`'s Scoped branch
delegates to `ServiceScope.getOrCreate`, which invokes the factory with the
*scope itself* (`descriptor.factory(this)`), so the nested resolve restarts
with an empty path instead of the extended one. -/
def dScA : ServiceDescriptor := ⟨41, 41, none, .Scoped, .resolveTok 42 false none, none, 0, false⟩
def dScB : ServiceDescriptor := ⟨42, 42, none, .Scoped, .resolveTok 41 false none, none, 0, false⟩
def c2sregs : Registry := [dScA, dScB]

/-- Transient A↔B cycle (here the factory receives the path-bound resolver). -/
def dTrA : ServiceDescriptor := ⟨45, 45, none, .Transient, .resolveTok 46 false none, none, 0, false⟩
def dTrB : ServiceDescriptor := ⟨46, 46, none, .Transient, .resolveTok 45 false none, none, 0, false⟩
def c2tregs : Registry := [dTrA, dTrB]

/-- Nothing about the cyclic pair is cached or in flight in the scope. -/
def c2pre (w : World) : Prop :=
  lookupA w.scopeSt.scopedInstances 41 = none ∧
  lookupA w.scopeSt.scopedInstances 42 = none ∧
  lookupA w.scopeSt.scopedPromises 41 = none ∧
  lookupA w.scopeSt.scopedPromises 42 = none

theorem c2pickA : pickDescriptor c2sregs 41 none = some dScA := by rfl
theorem c2pickB : pickDescriptor c2sregs 42 none = some dScB := by rfl

/-- Synchronously resolving either token of the Scoped cycle runs out of any
amount of fuel: the real code recurses without bound (stack overflow), it
never reaches `CircularDependencyError`. -/
theorem c2_scoped_diverges :
    ∀ (fuel : Nat) (w : World), c2pre w →
      scopeResolve fuel c2sregs 41 none w = .error .outOfFuel ∧
      scopeResolve fuel c2sregs 42 none w = .error .outOfFuel := by
  intro fuel
  induction fuel using Nat.strong_induction_on with
  | _ fuel ih =>
    intro w hw
    obtain ⟨h1, h2, h3, h4⟩ := hw
    rcases fuel with _ | (_ | (_ | (_ | n)))
    · exact ⟨rfl, rfl⟩
    · constructor <;>
        simp [scopeResolve, resolveInternalSync, syncStep, c2pickA, c2pickB,
          dScA, dScB, frameKey]
    · constructor <;>
        simp [scopeResolve, resolveInternalSync, syncStep, c2pickA, c2pickB,
          dScA, dScB, frameKey, h1, h2, h3, h4]
    · constructor <;>
        simp [scopeResolve, resolveInternalSync, syncStep, c2pickA, c2pickB,
          dScA, dScB, frameKey, h1, h2, h3, h4]
    · have hpreA : c2pre (bumpCount w 41) := by
        simp only [c2pre, bumpCount]
        exact ⟨h1, h2, h3, h4⟩
      have hpreB : c2pre (bumpCount w 42) := by
        simp only [c2pre, bumpCount]
        exact ⟨h1, h2, h3, h4⟩
      have hA := (ih n (by omega) (bumpCount w 41) hpreA).2
      have hB := (ih n (by omega) (bumpCount w 42) hpreB).1
      simp only [scopeResolve, resolveInternalSync] at hA hB
      constructor
      · simp [scopeResolve, resolveInternalSync, syncStep, c2pickA, c2pickB,
          dScA, dScB, frameKey, h1, h2, h3, h4, hA]
      · simp [scopeResolve, resolveInternalSync, syncStep, c2pickA, c2pickB,
          dScA, dScB, frameKey, h1, h2, h3, h4, hB]

/-- **C2**: (1) whenever descriptor selection succeeds and the selected
`(token, key)` frame already occurs in the current resolution path, both
synchronous and asynchronous resolution fail with `CircularDependency`
carrying the full chain `path ++ [frame]`.  (2) BUT for two Scoped
descriptors registered as mutually recursive factories, synchronous
resolution from a scope diverges for *every* fuel bound — `getOrCreate`
hands the factory the bare scope, so the nested resolve starts from an empty
path and the cycle is never detected (the claimed CircularDependency is never
raised).  (3) For the same cycle under Transient descriptors the path-bound
resolver is used and CircularDependency with the full chain is raised. -/
theorem cycle_frame_detection :
    (∀ (fuel : Nat) (regs : Registry) (t : Nat) (opt : Bool) (k : Option Nat)
       (fs : Bool) (stack : List Frame) (w : World) (d : ServiceDescriptor),
      pickDescriptor regs t k = some d →
      (t, frameKey d.key k) ∈ stack →
      resolveInternalSync (fuel + 1) regs t opt k fs stack w =
        .error (.circularDependency (stack ++ [(t, frameKey d.key k)]))
      ∧ resolveInternalAsync fuel regs t opt k fs stack w =
        .error (.circularDependency (stack ++ [(t, frameKey d.key k)])))
    ∧ (∀ (fuel : Nat) (w : World), c2pre w →
        scopeResolve fuel c2sregs 41 none w = .error .outOfFuel)
    ∧ providerResolve 40 c2tregs 45 none emptyWorld =
        .error (.circularDependency [(45, none), (46, none), (45, none)]) := by
  refine ⟨?_, fun fuel w hw => (c2_scoped_diverges fuel w hw).1, by rfl⟩
  intro fuel regs t opt k fs stack w d hpick hmem
  constructor
  · simp [resolveInternalSync, syncStep, hpick, hmem]
  · simp [resolveInternalAsync, hpick, hmem]

/-! ## C4 / C10 — in-flight deduplication and sticky rejection -/

theorem eq_none_of_not_isSome {α : Type} {o : Option α}
    (h : ¬ o.isSome = true) : o = none := by
  cases o with
  | none => rfl
  | some a => simp at h

/-- Starting an asynchronous materialization with a factory that performs no
nested resolution always succeeds: it allocates one pending promise, bumps the
factory-invocation count by one and touches no cache tier. -/
theorem materializeAsyncStart_simple (fuel : Nat) (regs : Registry)
    (d : ServiceDescriptor) (fs : Bool) (stack : List Frame) (w : World)
    (hf : simpleFactory d.factory = true) :
    ∃ (pid : Nat) (o : POutcome) (w0 : World),
      materializeAsyncStart fuel regs d fs stack w = .ok (pid, w0)
      ∧ w0.prov = w.prov ∧ w0.glob = w.glob ∧ w0.scopeSt = w.scopeSt
      ∧ lookupA w0.promStore pid = some ⟨o, .noneC, false⟩
      ∧ countOf w0 d.id = countOf w d.id + 1
      ∧ (∀ v, d.factory = .asyncConst v → o = .okP v)
      ∧ (∀ c, d.factory = .asyncFail c → o = .errP (.factoryFailure c)) := by
  cases hfa : d.factory with
  | resolveTok t opt k => rw [hfa] at hf; simp [simpleFactory] at hf
  | constv v =>
    refine ⟨w.nextId, .okP v, (mkPromise (.okP v) (bumpCount w d.id)).2,
      ?_, ?_, ?_, ?_, ?_, ?_, ?_, ?_⟩ <;>
      simp [materializeAsyncStart, hfa, mkPromise, bumpCount, countOf,
        lookupA_insertA_self]
  | fresh =>
    refine ⟨w.nextId + 1, .okP (.inst w.nextId),
      (mkPromise (.okP (.inst w.nextId))
        { bumpCount w d.id with nextId := w.nextId + 1 }).2,
      ?_, ?_, ?_, ?_, ?_, ?_, ?_, ?_⟩ <;>
      simp [materializeAsyncStart, hfa, mkPromise, bumpCount, countOf,
        lookupA_insertA_self]
  | asyncConst v =>
    refine ⟨w.nextId, .okP v, (mkPromise (.okP v) (bumpCount w d.id)).2,
      ?_, ?_, ?_, ?_, ?_, ?_, ?_, ?_⟩ <;>
      simp [materializeAsyncStart, hfa, mkPromise, bumpCount, countOf,
        lookupA_insertA_self]
  | asyncFail c =>
    refine ⟨w.nextId, .errP (.factoryFailure c),
      (mkPromise (.errP (.factoryFailure c)) (bumpCount w d.id)).2,
      ?_, ?_, ?_, ?_, ?_, ?_, ?_, ?_⟩ <;>
      simp [materializeAsyncStart, hfa, mkPromise, bumpCount, countOf,
        lookupA_insertA_self]

/-- Once one `resolveAsync` call holds the in-flight promise and the world is
stable, any number of further concurrent calls observe exactly the same
promise and change nothing. -/
theorem resolveAsyncTimes_stable (fuel : Nat) (regs : Registry)
    (d : ServiceDescriptor) (fs : Bool) (stack : List Frame) (pid : Nat) (w : World)
    (h : resolveDescriptorAsync fuel regs d fs stack w = .ok (.awaiting pid, w)) :
    ∀ n, resolveAsyncTimes fuel regs d fs stack n w =
      (List.replicate n (.ok (.awaiting pid)), w) := by
  intro n
  induction n with
  | zero => simp [resolveAsyncTimes]
  | succ n ih => simp [resolveAsyncTimes, h, ih, List.replicate_succ]

/-- The world after the first caller registered in-flight promise `pid` for a
Singleton descriptor (table entry + completion bound to the cache write). -/
def singletonInflight (d : ServiceDescriptor) (pid : Nat) (o : POutcome)
    (w0 : World) : World :=
  { w0 with
    prov := { w0.prov with
      singletonPromises := insertA w0.prov.singletonPromises d.id pid },
    promStore := insertA w0.promStore pid ⟨o, .singletonC d.id, false⟩ }

/-- Same for a GlobalSingleton descriptor. -/
def globalInflight (d : ServiceDescriptor) (pid : Nat) (o : POutcome)
    (w0 : World) : World :=
  { w0 with
    glob := { w0.glob with
      globalPromises := insertA w0.glob.globalPromises (globalKeyFor d) pid },
    promStore := insertA w0.promStore pid ⟨o, .globalC (globalKeyFor d), false⟩ }

/-- Same for a Scoped descriptor. -/
def scopedInflight (d : ServiceDescriptor) (pid : Nat) (o : POutcome)
    (w0 : World) : World :=
  { w0 with
    scopeSt := { w0.scopeSt with
      scopedPromises := insertA w0.scopeSt.scopedPromises d.id pid },
    promStore := insertA w0.promStore pid ⟨o, .scopedC d.id, false⟩ }

/-- **C4**: N concurrent `resolveAsync` calls against the same unsettled
asynchronous Singleton / GlobalSingleton / Scoped cache key observe one
in-flight materialization: the first call registers a pending promise `pid`
and bumps the factory-invocation count by exactly one; every one of the `n`
calls issued before the promise settles receives the same `awaiting pid` and
leaves the world untouched; and once the promise settles every caller reads
the same resolved value from it. -/
theorem async_inflight_dedup (fuel : Nat) (regs : Registry)
    (d : ServiceDescriptor) (fs : Bool) (stack : List Frame) (w : World) (n : Nat)
    (hlt : d.lifetime = .Singleton ∨ d.lifetime = .GlobalSingleton ∨
      d.lifetime = .Scoped)
    (hsc : d.lifetime = .Scoped → fs = true)
    (hcache : noCachedValue d w)
    (hpend : ¬ pendingInFlight d w)
    (hf : simpleFactory d.factory = true) :
    ∃ (pid : Nat) (w1 : World),
      resolveDescriptorAsync fuel regs d fs stack w = .ok (.awaiting pid, w1)
      ∧ countOf w1 d.id = countOf w d.id + 1
      ∧ resolveAsyncTimes fuel regs d fs stack n w1 =
          (List.replicate n (.ok (.awaiting pid)), w1)
      ∧ (∀ v, d.factory = .asyncConst v →
          awaitResult (settlePromise w1 pid) pid = some (.ok v)) := by
  obtain ⟨pid, o, w0, hstart, hprov, hglob, hscope, hps, hcount, hConst, hFail⟩ :=
    materializeAsyncStart_simple fuel regs d fs stack w hf
  rcases hlt with hl | hl | hl
  · simp only [noCachedValue, hl] at hcache
    simp only [pendingInFlight, hl] at hpend
    have hpnone := eq_none_of_not_isSome hpend
    refine ⟨pid, singletonInflight d pid o w0, ?_, ?_, ?_, ?_⟩
    · simp [resolveDescriptorAsync, hl, hcache, hpnone, hstart, setCompletion,
        hps, singletonInflight]
    · simp only [singletonInflight, countOf] at hcount ⊢
      exact hcount
    · apply resolveAsyncTimes_stable
      simp [resolveDescriptorAsync, hl, singletonInflight, hprov, hcache,
        lookupA_insertA_self]
    · intro v hv
      have ho := hConst v hv
      subst ho
      simp [singletonInflight, settlePromise, awaitResult,
        lookupA_insertA_self, runCompletion]
  · simp only [noCachedValue, hl] at hcache
    simp only [pendingInFlight, hl] at hpend
    have hpnone := eq_none_of_not_isSome hpend
    refine ⟨pid, globalInflight d pid o w0, ?_, ?_, ?_, ?_⟩
    · simp [resolveDescriptorAsync, hl, hcache, hpnone, hstart, setCompletion,
        hps, globalInflight]
    · simp only [globalInflight, countOf] at hcount ⊢
      exact hcount
    · apply resolveAsyncTimes_stable
      simp [resolveDescriptorAsync, hl, globalInflight, hglob, hcache,
        lookupA_insertA_self]
    · intro v hv
      have ho := hConst v hv
      subst ho
      simp [globalInflight, settlePromise, awaitResult,
        lookupA_insertA_self, runCompletion]
  · have hfs := hsc hl
    subst hfs
    simp only [noCachedValue, hl] at hcache
    simp only [pendingInFlight, hl] at hpend
    have hpnone := eq_none_of_not_isSome hpend
    refine ⟨pid, scopedInflight d pid o w0, ?_, ?_, ?_, ?_⟩
    · simp [resolveDescriptorAsync, hl, hcache, hpnone, hstart,
        setCompletion, hps, scopedInflight]
    · simp only [scopedInflight, countOf] at hcount ⊢
      exact hcount
    · apply resolveAsyncTimes_stable
      simp [resolveDescriptorAsync, hl, scopedInflight, hscope, hcache,
        lookupA_insertA_self]
    · intro v hv
      have ho := hConst v hv
      subst ho
      simp [scopedInflight, settlePromise, awaitResult,
        lookupA_insertA_self, runCompletion]

/-- The dedup descriptor for the C4 witness: an unsettled asynchronous
Singleton. -/
def c4desc : ServiceDescriptor :=
  ⟨8, 8, none, .Singleton, .asyncConst (.vnat 7), none, 0, false⟩

/-- Witness for `async_inflight_dedup` [C4] at a concrete input: an async
Singleton resolved 3 more times while in flight. -/
theorem async_inflight_dedup_witness :
    ∃ (pid : Nat) (w1 : World),
      resolveDescriptorAsync 5 [c4desc] c4desc false [(8, none)] emptyWorld =
        .ok (.awaiting pid, w1)
      ∧ countOf w1 8 = countOf emptyWorld 8 + 1
      ∧ resolveAsyncTimes 5 [c4desc] c4desc false [(8, none)] 3 w1 =
          (List.replicate 3 (.ok (.awaiting pid)), w1)
      ∧ (∀ v, c4desc.factory = .asyncConst v →
          awaitResult (settlePromise w1 pid) pid = some (.ok v)) := by
  exact async_inflight_dedup 5 [c4desc] c4desc false [(8, none)] emptyWorld 3
    (Or.inl rfl) (fun h => by cases h) (by simp [noCachedValue, c4desc, lookupA])
    (by simp [pendingInFlight, c4desc, lookupA]) (by rfl)

theorem factoryCount_runCompletion (c : Completion) (v : Value) (w : World) :
    (runCompletion c v w).factoryCount = w.factoryCount := by
  cases c <;> simp [runCompletion]

theorem countOf_settlePromise (w : World) (pid i : Nat) :
    countOf (settlePromise w pid) i = countOf w i := by
  simp only [settlePromise]
  cases h : lookupA w.promStore pid with
  | none => rfl
  | some e =>
    cases hs : e.settled
    · cases ho : e.outcome <;>
        simp [hs, ho, countOf, factoryCount_runCompletion]
    · simp [hs]

/-- **C10**: when the asynchronous factory of a Singleton / GlobalSingleton /
Scoped descriptor rejects, the settled (rejected) promise entry is never
removed from the in-flight table for its cache key — the `await` threw before
the cleanup code ran.  Every subsequent `resolveAsync` for the key returns
the very same promise without invoking the factory again (the invocation
count stays at one and the world is unchanged), and every subsequent
synchronous `resolve` fails with `AsyncFactoryError`. -/
theorem async_rejection_sticky (fuel : Nat) (regs : Registry)
    (d : ServiceDescriptor) (fs : Bool) (stack : List Frame) (w : World)
    (code : Nat)
    (hlt : d.lifetime = .Singleton ∨ d.lifetime = .GlobalSingleton ∨
      d.lifetime = .Scoped)
    (hsc : d.lifetime = .Scoped → fs = true)
    (hcache : noCachedValue d w)
    (hpend : ¬ pendingInFlight d w)
    (hfa : d.factory = .asyncFail code) :
    ∃ (pid : Nat) (w1 : World),
      resolveDescriptorAsync fuel regs d fs stack w = .ok (.awaiting pid, w1)
      ∧ awaitResult (settlePromise w1 pid) pid =
          some (.error (.factoryFailure code))
      ∧ pendingInFlight d (settlePromise w1 pid)
      ∧ resolveDescriptorAsync fuel regs d fs stack (settlePromise w1 pid) =
          .ok (.awaiting pid, settlePromise w1 pid)
      ∧ countOf (settlePromise w1 pid) d.id = countOf w d.id + 1
      ∧ (∀ fuel2 : Nat, isAsyncFactoryError
          (resolveDescriptorSync (fuel2 + 1) regs d fs stack
            (settlePromise w1 pid))) := by
  obtain ⟨pid, o, w0, hstart, hprov, hglob, hscope, hps, hcount, hConst, hFail⟩ :=
    materializeAsyncStart_simple fuel regs d fs stack w
      (by rw [hfa]; rfl)
  have ho := hFail code hfa
  subst ho
  rcases hlt with hl | hl | hl
  · simp only [noCachedValue, hl] at hcache
    simp only [pendingInFlight, hl] at hpend
    have hpnone := eq_none_of_not_isSome hpend
    refine ⟨pid, singletonInflight d pid (.errP (.factoryFailure code)) w0,
      ?_, ?_, ?_, ?_, ?_, ?_⟩
    · simp [resolveDescriptorAsync, hl, hcache, hpnone, hstart, setCompletion,
        hps, singletonInflight]
    · simp [singletonInflight, settlePromise, awaitResult, lookupA_insertA_self]
    · simp [pendingInFlight, hl, singletonInflight, settlePromise,
        lookupA_insertA_self]
    · simp [resolveDescriptorAsync, hl, singletonInflight, settlePromise,
        hprov, hcache, lookupA_insertA_self]
    · rw [countOf_settlePromise]
      simpa [singletonInflight, countOf] using hcount
    · intro fuel2
      simp [resolveDescriptorSync, syncStep, hl, singletonInflight,
        settlePromise, hprov, hcache, lookupA_insertA_self, isAsyncFactoryError]
  · simp only [noCachedValue, hl] at hcache
    simp only [pendingInFlight, hl] at hpend
    have hpnone := eq_none_of_not_isSome hpend
    refine ⟨pid, globalInflight d pid (.errP (.factoryFailure code)) w0,
      ?_, ?_, ?_, ?_, ?_, ?_⟩
    · simp [resolveDescriptorAsync, hl, hcache, hpnone, hstart, setCompletion,
        hps, globalInflight]
    · simp [globalInflight, settlePromise, awaitResult, lookupA_insertA_self]
    · simp [pendingInFlight, hl, globalInflight, settlePromise,
        lookupA_insertA_self]
    · simp [resolveDescriptorAsync, hl, globalInflight, settlePromise,
        hglob, hcache, lookupA_insertA_self]
    · rw [countOf_settlePromise]
      simpa [globalInflight, countOf] using hcount
    · intro fuel2
      simp [resolveDescriptorSync, syncStep, hl, globalInflight,
        settlePromise, hglob, hcache, lookupA_insertA_self, isAsyncFactoryError]
  · have hfs := hsc hl
    subst hfs
    simp only [noCachedValue, hl] at hcache
    simp only [pendingInFlight, hl] at hpend
    have hpnone := eq_none_of_not_isSome hpend
    refine ⟨pid, scopedInflight d pid (.errP (.factoryFailure code)) w0,
      ?_, ?_, ?_, ?_, ?_, ?_⟩
    · simp [resolveDescriptorAsync, hl, hcache, hpnone, hstart, setCompletion,
        hps, scopedInflight]
    · simp [scopedInflight, settlePromise, awaitResult, lookupA_insertA_self]
    · simp [pendingInFlight, hl, scopedInflight, settlePromise,
        lookupA_insertA_self]
    · simp [resolveDescriptorAsync, hl, scopedInflight, settlePromise,
        hscope, hcache, lookupA_insertA_self]
    · rw [countOf_settlePromise]
      simpa [scopedInflight, countOf] using hcount
    · intro fuel2
      simp [resolveDescriptorSync, syncStep, hl, scopedInflight,
        settlePromise, hscope, hcache, lookupA_insertA_self, isAsyncFactoryError]

/-- The rejecting descriptor for the C10 witness. -/
def c10desc : ServiceDescriptor :=
  ⟨9, 9, none, .Singleton, .asyncFail 42, none, 0, false⟩

/-- Witness for `async_rejection_sticky` [C10] at a concrete input. -/
theorem async_rejection_sticky_witness :
    ∃ (pid : Nat) (w1 : World),
      resolveDescriptorAsync 5 [c10desc] c10desc false [(9, none)] emptyWorld =
        .ok (.awaiting pid, w1)
      ∧ awaitResult (settlePromise w1 pid) pid =
          some (.error (.factoryFailure 42))
      ∧ pendingInFlight c10desc (settlePromise w1 pid)
      ∧ resolveDescriptorAsync 5 [c10desc] c10desc false [(9, none)]
          (settlePromise w1 pid) = .ok (.awaiting pid, settlePromise w1 pid)
      ∧ countOf (settlePromise w1 pid) 9 = countOf emptyWorld 9 + 1
      ∧ (∀ fuel2 : Nat, isAsyncFactoryError
          (resolveDescriptorSync (fuel2 + 1) [c10desc] c10desc false [(9, none)]
            (settlePromise w1 pid))) := by
  exact async_rejection_sticky 5 [c10desc] c10desc false [(9, none)] emptyWorld 42
    (Or.inl rfl) (fun h => by cases h) (by simp [noCachedValue, c10desc, lookupA])
    (by simp [pendingInFlight, c10desc, lookupA]) (by rfl)

end DI
